import Mathlib

/-!
Verification development for the `taskengine` chain-execution engine of
contenox/runtime-mvp.

The Go source (`core/taskengine/exec.go` and friends) is shallowly embedded:

* Go strings are Lean `String`s; the `strings` package helpers used by the
  source (`Split` on the one-character separator `"-"`, `TrimSpace`,
  `Contains`, `HasPrefix`, `HasSuffix`) are modelled by explicit recursive
  functions over `List Char` so that every predicate is executable and
  kernel-reducible.
* Go numeric parsing (`strconv.ParseInt` base 10 / bit size 64, then
  `strconv.ParseFloat`) is modelled exactly over the decimal grammar
  (sign, digits, optional fraction, optional exponent) with values taken
  in `ℚ`: the model keeps the parsed value exact instead of rounding to
  a 64-bit float, which is the standard idealisation and does not affect
  the branch structure (int-first, float fallback, failure on malformed
  input) that the engine's comparisons depend on.
* Fallible Go functions returning `(T, error)` become `Except String T`;
  error strings mirror the `fmt.Errorf` formats of the source.
* The engine's side effects (`tracker.Start` calls and the one
  `fmt.Println`) are reified as an event trace; the `for` loop of
  `ExecEnv` becomes fuel-bounded recursion.
-/

/-- DataType mirrors the Go `DataType` tag set (`exec.go`). -/
inductive DataType
  | any
  | string
  | bool
  | int
  | float
  | searchResults
  | json
  | chatHistory
  | openaiChat
  | openaiChatResponse
deriving DecidableEq, Repr

/-- Values flowing between tasks: Go `any`.  The engine itself only ever
inspects string payloads (template rendering); every other payload is
opaque, modelled by an indexed box. -/
inductive Value
  | str (s : String)
  | box (n : Nat)
deriving DecidableEq, Repr

/-- Reserved terminal task id (`TermEnd`), spec §6.4. -/
def TermEnd : String := "end"

/-- Operator literal for default branches (`OpDefault`), spec §6.4. -/
def OpDefault : String := "default"

/-- TransitionBranch mirrors Go `TransitionBranch{Operator, When, Goto}`. -/
structure TransitionBranch where
  operator : String
  whenCond : String
  goto : String
deriving DecidableEq, Repr

/-- TaskTransition mirrors Go `TaskTransition{Branches, OnFailure}`. -/
structure TaskTransition where
  branches : List TransitionBranch
  onFailure : String
deriving DecidableEq, Repr

/-- ChainTask mirrors the fields of Go `ChainTask` that the engine reads:
`ID`, `Type`, `Template`, `Print`, `Timeout`, `RetryOnFailure`,
`Transition`. -/
structure ChainTask where
  id : String
  taskType : String
  template : String
  print : String
  timeout : String
  retryOnFailure : Int
  transition : TaskTransition
deriving DecidableEq, Repr

/-- ChainDefinition mirrors the fields of Go `ChainDefinition` that the
engine reads: `RoutingStrategy` and `Tasks`. -/
structure ChainDefinition where
  routingStrategy : String
  tasks : List ChainTask
deriving DecidableEq, Repr

/-! ### Models of the Go standard-library string helpers -/

/-- Decimal digit test, `'0' ≤ c ≤ '9'`. -/
def isDigit (c : Char) : Bool := '0' ≤ c && c ≤ '9'

/-- Numeric value of a digit string (most significant first). -/
def digitsToNat (l : List Char) : Nat :=
  l.foldl (fun a c => a * 10 + (c.toNat - '0'.toNat)) 0

/-- Longest digit run at the front of a character list, and the rest. -/
def takeDigits : List Char → List Char × List Char
  | [] => ([], [])
  | c :: rest =>
    if isDigit c then
      let p := takeDigits rest
      (c :: p.1, p.2)
    else ([], c :: rest)

/-- Model of Go `strings.Split(s, sep)` for a one-character separator:
splits at every occurrence, yielding `n+1` (possibly empty) pieces for
`n` separators; the empty string yields `[""]`. -/
def splitOnChar (sep : Char) : List Char → List (List Char)
  | [] => [[]]
  | c :: rest =>
    if c = sep then [] :: splitOnChar sep rest
    else
      match splitOnChar sep rest with
      | [] => [[c]]
      | h :: t => (c :: h) :: t

/-- Model of Go `strings.TrimSpace` (whitespace restricted to the ASCII
space characters Lean's `Char.isWhitespace` recognises). -/
def trimChars (cs : List Char) : List Char :=
  ((cs.dropWhile Char.isWhitespace).reverse.dropWhile Char.isWhitespace).reverse

/-- Model of Go `strings.HasPrefix`. -/
def hasPrefixL : List Char → List Char → Bool
  | [], _ => true
  | _ :: _, [] => false
  | p :: ps, c :: cs => p = c && hasPrefixL ps cs

/-- Model of Go `strings.Contains`. -/
def containsL (hay needle : List Char) : Bool :=
  match hay with
  | [] => needle.isEmpty
  | _ :: t => hasPrefixL needle hay || containsL t needle

/-- Model of Go `strings.HasSuffix`. -/
def hasSuffixL (suf cs : List Char) : Bool :=
  hasPrefixL suf.reverse cs.reverse

/-- Exact decimal number with value `num * 10 ^ exp`.  This is the model
of the `float64` values produced by the engine's number parsing: the
parsed decimal is kept exact instead of being rounded to a 64-bit float,
so every comparison below is the exact comparison of the written
numbers. -/
structure DecNum where
  num : Int
  exp : Int
deriving DecidableEq, Repr

namespace DecNum

/-- Both numbers brought to the common (smaller) power of ten. -/
def scaled (a b : DecNum) : Int × Int :=
  (a.num * 10 ^ (a.exp - min a.exp b.exp).toNat,
   b.num * 10 ^ (b.exp - min a.exp b.exp).toNat)

/-- Value order: compare the integer numerators at a common scale. -/
def le (a b : DecNum) : Prop := (scaled a b).1 ≤ (scaled a b).2

/-- Strict value order at a common scale. -/
def lt (a b : DecNum) : Prop := (scaled a b).1 < (scaled a b).2

instance : LE DecNum := ⟨le⟩

instance : LT DecNum := ⟨lt⟩

instance (a b : DecNum) : Decidable (a ≤ b) := Int.decLe _ _

instance (a b : DecNum) : Decidable (a < b) := Int.decLt _ _

/-- Value of a `DecNum` as a rational. -/
def toRat (a : DecNum) : ℚ := (a.num : ℚ) * 10 ^ a.exp

end DecNum

/-- Model of Go `strconv.ParseInt(s, 10, 64)`: optional sign, then a
non-empty run of decimal digits, value within the signed 64-bit range. -/
def parseInt64 (s : String) : Option Int :=
  let sp : Bool × List Char :=
    match s.toList with
    | '-' :: r => (true, r)
    | '+' :: r => (false, r)
    | r => (false, r)
  if sp.2 ≠ [] ∧ sp.2.all isDigit then
    let v : Int := if sp.1 then -(digitsToNat sp.2 : Int) else (digitsToNat sp.2 : Int)
    if -(2 ^ 63) ≤ v ∧ v ≤ 2 ^ 63 - 1 then some v else none
  else none

/-- Exponent suffix of the Go float grammar: either nothing, or
`e`/`E`, optional sign, non-empty digits ending the string; the result
adjusts the decimal exponent of the mantissa. -/
def parseExponent (mant : DecNum) : List Char → Option DecNum
  | [] => some mant
  | e :: r =>
    if e = 'e' ∨ e = 'E' then
      let sp : Bool × List Char :=
        match r with
        | '-' :: r2 => (true, r2)
        | '+' :: r2 => (false, r2)
        | r2 => (false, r2)
      let ed := takeDigits sp.2
      if ed.1 ≠ [] ∧ ed.2 = [] then
        some ⟨mant.num,
          if sp.1 then mant.exp - digitsToNat ed.1 else mant.exp + digitsToNat ed.1⟩
      else none
    else none

/-- Model of Go `strconv.ParseFloat(s, 64)` on the decimal grammar
(optional sign, digits with optional fraction, optional exponent); the
value is kept exact as a `DecNum` instead of being rounded to a 64-bit
float. -/
def parseFloatD (s : String) : Option DecNum :=
  let sp : Bool × List Char :=
    match s.toList with
    | '-' :: r => (true, r)
    | '+' :: r => (false, r)
    | r => (false, r)
  let ip := takeDigits sp.2
  let fp : List Char × List Char :=
    match ip.2 with
    | '.' :: r => takeDigits r
    | _ => ([], ip.2)
  if ip.1 = [] ∧ fp.1 = [] then none
  else
    let mant : DecNum :=
      ⟨(digitsToNat ip.1 : Int) * 10 ^ fp.1.length + (digitsToNat fp.1 : Int),
       -(fp.1.length : Int)⟩
    match parseExponent mant fp.2 with
    | none => none
    | some q => some (if sp.1 then ⟨-q.num, q.exp⟩ else q)

/-- parseNumber mirrors the source: try `ParseInt` first, fall back to
`ParseFloat`.  Errors carry a model message in place of the `strconv`
error text. -/
def parseNumber (s : String) : Except String DecNum :=
  match parseInt64 s with
  | some i => .ok ⟨i, 0⟩
  | none =>
    match parseFloatD s with
    | some q => .ok q
    | none => .error ("invalid number: " ++ s)

/-! ### Operator constants

The `OperatorTerm` constants live in a `taskengine` file that is not part
of the provided sources; their literal values are modelled from the spec
(§3 operator set, §6.4 reserved literals) and from the literals used by
`tasksrecipes` and by the `compare` switch arms. -/

def OpEquals : String := "equals"
def OpContains : String := "contains"
def OpStartsWith : String := "starts_with"
def OpEndsWith : String := "ends_with"
def OpGreaterThan : String := "greater_than"
def OpGt : String := ">"
def OpLessThan : String := "less_than"
def OpLt : String := "<"
def OpInRange : String := "in_range"

/-- compare mirrors the source switch: equality, containment,
prefix/suffix, strict numeric comparisons, and the inclusive `in_range`
check.  The Go `len(parts) != 2` guard is rendered as the catch-all arm
of the match on the split result. -/
def compare (operator response whenCond : String) : Except String Bool :=
  if operator = OpEquals then .ok (decide (response = whenCond))
  else if operator = OpContains then .ok (containsL response.toList whenCond.toList)
  else if operator = OpStartsWith then .ok (hasPrefixL whenCond.toList response.toList)
  else if operator = OpEndsWith then .ok (hasSuffixL whenCond.toList response.toList)
  else if operator = OpGreaterThan ∨ operator = OpGt then
    match parseNumber response with
    | .error e => .error e
    | .ok resNum =>
      match parseNumber whenCond with
      | .error e => .error e
      | .ok targetNum => .ok (decide (resNum > targetNum))
  else if operator = OpLessThan ∨ operator = OpLt then
    match parseNumber response with
    | .error e => .error e
    | .ok resNum =>
      match parseNumber whenCond with
      | .error e => .error e
      | .ok targetNum => .ok (decide (resNum < targetNum))
  else if operator = OpInRange then
    match splitOnChar '-' whenCond.toList with
    | [p0, p1] =>
      match parseNumber (String.mk (trimChars p0)) with
      | .error e => .error ("invalid lower bound: " ++ e)
      | .ok lower =>
        match parseNumber (String.mk (trimChars p1)) with
        | .error e => .error ("invalid upper bound: " ++ e)
        | .ok upper =>
          match parseNumber response with
          | .error e => .error e
          | .ok resNum => .ok (decide (resNum ≥ lower ∧ resNum ≤ upper))
    | _ => .error ("invalid between range format: " ++ whenCond)
  else .error ("unsupported operator: " ++ operator)

/-- First loop of `evaluateTransitions`: scan branches in declared order,
skipping `default`, returning the first branch whose comparison holds;
a comparison error aborts the scan. -/
def firstMatchLoop (eval : String) : List TransitionBranch → Except String (Option String)
  | [] => .ok none
  | ct :: rest =>
    if ct.operator = OpDefault then firstMatchLoop eval rest
    else
      match compare ct.operator eval ct.whenCond with
      | .error e => .error e
      | .ok true => .ok (some ct.goto)
      | .ok false => firstMatchLoop eval rest

/-- Second loop of `evaluateTransitions`: find a branch whose operator is
the literal `"default"`. -/
def defaultLoop : List TransitionBranch → Option String
  | [] => none
  | ct :: rest => if ct.operator = "default" then some ct.goto else defaultLoop rest

/-- evaluateTransitions mirrors the source's two sequential loops. -/
def evaluateTransitions (transition : TaskTransition) (eval : String) : Except String String :=
  match firstMatchLoop eval transition.branches with
  | .error e => .error e
  | .ok (some g) => .ok g
  | .ok none =>
    match defaultLoop transition.branches with
    | some g => .ok g
    | none => .error "no matching transition found"

/-- findTaskByID returns the first task with the given id, as in the
source. -/
def findTaskByID (tasks : List ChainTask) (id : String) : Except String ChainTask :=
  match tasks with
  | [] => .error ("task not found: " ++ id)
  | t :: rest => if t.id = id then .ok t else findTaskByID rest id

/-- Loop body of `validateChain`: first offending task id wins. -/
def validateLoop : List ChainTask → Option String
  | [] => none
  | ct :: rest =>
    if ct.id = "" then some "task ID cannot be empty"
    else if ct.id = TermEnd then some ("task ID cannot be '" ++ TermEnd ++ "'")
    else validateLoop rest

/-- validateChain mirrors the source: reject an empty task list, then
reject the first task whose id is empty or the reserved terminal.  The
result is `none` when the chain is accepted, `some msg` when rejected. -/
def validateChain (tasks : List ChainTask) : Option String :=
  if tasks.isEmpty then some "chain has no tasks"
  else validateLoop tasks

deriving instance DecidableEq for Except

/-! ### Resolver policy

The `llmresolver` package is not part of the provided sources; the policy
set is modelled from the spec (§4.2 known policies, §6.1 the strategy
strings admitted by the chain JSON format). -/

/-- Modelled from the spec: the closed set of resolver policies of the
`llmresolver` package (`random`, `round_robin`, `low_latency`). -/
inductive Policy
  | random
  | roundRobin
  | lowLatency
deriving DecidableEq, Repr

/-- Modelled from the spec: `llmresolver.PolicyFromString`, mapping a
strategy string to its policy; unknown strings fail. -/
def PolicyFromString (s : String) : Option Policy :=
  if s = "random" then some Policy.random
  else if s = "round_robin" then some Policy.roundRobin
  else if s = "low_latency" then some Policy.lowLatency
  else none

/-! ### The engine, as a fuel-bounded event-emitting interpreter -/

/-- One observable side effect of `ExecEnv`.  Every constructor except
`stdoutPrint` reifies a `tracker.Start` call of the source;
`stdoutPrint` reifies the `fmt.Println` in the print-handling step. -/
inductive Event
  | taskAttempt (taskID : String) (retry : Nat) (taskType : String)
  | attemptError (taskID : String) (err : String)
  | attemptSuccess (taskID : String)
  | nextTaskOnError (fromTask toTask : String)
  | nextTask (fromTask toTask : String)
  | chainComplete
  | stdoutPrint (msg : String)
deriving DecidableEq, Repr

/-- Whether an event is an activity-tracker event (true for every
constructor reifying `tracker.Start`; false for the `fmt.Println`
effect). -/
def Event.isTrackerEvent : Event → Bool
  | .stdoutPrint _ => false
  | _ => true

/-- Result of one `TaskExec` call: the quadruple
`(output, outputType, transitionEval, err)` of the Go interface, plus
`duration`, the wall-clock attempt duration — not representable in the
embedding, so it is abstract data supplied by the executor and only
copied into captured state. -/
structure TaskOutcome where
  output : Value
  outputType : DataType
  transitionEval : String
  duration : Nat
  err : Option String
deriving DecidableEq, Repr

/-- Variable scope of one execution (the Go `vars map[string]any`). -/
def VarMap := String → Option Value

/-- Map update, modelling Go map assignment. -/
def VarMap.insert (m : VarMap) (k : String) (v : Value) : VarMap :=
  fun k2 => if k2 = k then some v else m k2

/-- Initial scope: only `"input"` is bound. -/
def VarMap.init (input : Value) : VarMap :=
  fun k => if k = "input" then some input else none

/-- The engine's collaborators, abstracted exactly where the source
calls out of the `taskengine` package: the task executor (`TaskExec`,
indexed by the retry counter so that stateful executors are expressible),
the text/template renderer, and `time.ParseDuration`. -/
structure Env where
  exec : Policy → ChainTask → Value → DataType → Nat → TaskOutcome
  render : String → VarMap → Except String String
  parseDuration : String → Except String Int

/-- Outcome of the retry loop: a fatal engine error (invalid timeout) or
the outcome of the last attempt (`err = none` means success). -/
inductive AttemptResult
  | fatal (msg : String)
  | done (o : TaskOutcome)
deriving DecidableEq, Repr

/-- Per-iteration timeout handling (source lines 132-139): a non-empty
timeout string that fails to parse aborts the execution, before the
attempt's tracker event is emitted. -/
def timeoutCheck (env : Env) (task : ChainTask) : Option String :=
  if task.timeout = "" then none
  else
    match env.parseDuration task.timeout with
    | .ok _ => none
    | .error e => some ("task " ++ task.id ++ ": invalid timeout: " ++ e)

/-- The retry loop of `ExecEnv` (`for retry := 0; retry <= maxRetries`):
`retry` is the current index, `remaining` the number of iterations still
allowed after this one, so the initial call is `0, maxRetries`.  Each
iteration emits a `task_attempt` event, then either a success change
event (breaking the loop) or an error event (continuing). -/
def runAttempts (env : Env) (resolver : Policy) (task : ChainTask) (inp : Value)
    (dt : DataType) : Nat → Nat → List Event × AttemptResult
  | retry, remaining =>
    match timeoutCheck env task with
    | some msg => ([], .fatal msg)
    | none =>
      let o := env.exec resolver task inp dt retry
      match o.err with
      | none => ([.taskAttempt task.id retry task.taskType, .attemptSuccess task.id], .done o)
      | some e =>
        match remaining with
        | 0 => ([.taskAttempt task.id retry task.taskType, .attemptError task.id e], .done o)
        | r + 1 =>
          let p := runAttempts env resolver task inp dt (retry + 1) r
          (.taskAttempt task.id retry task.taskType :: .attemptError task.id e :: p.1, p.2)

/-- Final status of an execution. -/
inductive ExecOutcome
  | ok (v : Value)
  | fail (msg : String)
  | outOfFuel
deriving DecidableEq, Repr

/-- `maxRetries := max(currentTask.RetryOnFailure, 0)` (source line 125). -/
def maxRetriesOf (task : ChainTask) : Nat := (max task.retryOnFailure 0).toNat

/-- The main loop of `ExecEnv` (source lines 113-231), as fuel-bounded
recursion; one unit of fuel is one task visit.  The `output == 0` half of
the Go empty-render check is dropped: the rendered value is a string, so
only the `== ""` half can fire. -/
def execLoop (env : Env) (resolver : Policy) (tasks : List ChainTask) :
    Nat → VarMap → ChainTask → Value → DataType → List Event × ExecOutcome
  | 0, _, _, _, _ => ([], .outOfFuel)
  | fuel + 1, vars, currentTask, output0, outputType =>
    let rendered : Except String Value :=
      if outputType = DataType.string ∧ currentTask.template ≠ "" then
        match env.render currentTask.template vars with
        | .error e => .error ("task " ++ currentTask.id ++ ": template error: " ++ e)
        | .ok s =>
          if s = "" then .error ("task " ++ currentTask.id ++ ": template rendered empty string")
          else .ok (Value.str s)
      else .ok output0
    match rendered with
    | .error e => ([], .fail e)
    | .ok output =>
      let ra := runAttempts env resolver currentTask output outputType 0 (maxRetriesOf currentTask)
      match ra.2 with
      | .fatal msg => (ra.1, .fail msg)
      | .done o =>
        match o.err with
        | some e =>
          if currentTask.transition.onFailure ≠ "" then
            match findTaskByID tasks currentTask.transition.onFailure with
            | .error fe => (ra.1, .fail ("error transition target not found: " ++ fe))
            | .ok nt =>
              let p := execLoop env resolver tasks fuel vars nt o.output o.outputType
              (ra.1 ++ Event.nextTaskOnError currentTask.id nt.id :: p.1, p.2)
          else
            (ra.1, .fail ("task " ++ currentTask.id ++ " failed after " ++
              toString (maxRetriesOf currentTask) ++ " retries: " ++ e))
        | none =>
          let vars2 := (vars.insert "previous_output" o.output).insert currentTask.id o.output
          let printed : Except String (List Event) :=
            if currentTask.print ≠ "" then
              match env.render currentTask.print vars2 with
              | .error e => .error ("task " ++ currentTask.id ++ ": print template error: " ++ e)
              | .ok msg => .ok [Event.stdoutPrint msg]
            else .ok []
          match printed with
          | .error e => (ra.1, .fail e)
          | .ok pevs =>
            match evaluateTransitions currentTask.transition o.transitionEval with
            | .error e => (ra.1 ++ pevs, .fail ("task " ++ currentTask.id ++ ": transition error: " ++ e))
            | .ok nextTaskID =>
              if nextTaskID = "" ∨ nextTaskID = TermEnd then
                (ra.1 ++ pevs ++ [Event.chainComplete], .ok o.output)
              else
                match findTaskByID tasks nextTaskID with
                | .error fe =>
                  (ra.1 ++ pevs ++ [Event.nextTask currentTask.id nextTaskID],
                   .fail ("next task " ++ nextTaskID ++ " not found: " ++ fe))
                | .ok nt =>
                  let p := execLoop env resolver tasks fuel vars2 nt o.output o.outputType
                  (ra.1 ++ pevs ++ Event.nextTask currentTask.id nextTaskID :: p.1, p.2)

/-- Resolver selection (source lines 91-98): a non-empty strategy must
parse; the empty strategy defaults to the random policy.  The error text
of the external `llmresolver` package is modelled. -/
def resolvePolicy (chain : ChainDefinition) : Except String Policy :=
  if chain.routingStrategy.length > 0 then
    match PolicyFromString chain.routingStrategy with
    | some p => .ok p
    | none => .error ("unknown policy: " ++ chain.routingStrategy)
  else .ok Policy.random

/-- Everything `ExecEnv` does after the resolver is fixed: validate, look
up the entry task, run the main loop. -/
def execValidated (env : Env) (resolver : Policy) (chain : ChainDefinition)
    (input : Value) (dataType : DataType) (fuel : Nat) : List Event × ExecOutcome :=
  match validateChain chain.tasks with
  | some e => ([], .fail e)
  | none =>
    match chain.tasks with
    | [] => ([], .fail "chain has no tasks")
    | t0 :: _ =>
      match findTaskByID chain.tasks t0.id with
      | .error e => ([], .fail e)
      | .ok currentTask =>
        execLoop env resolver chain.tasks fuel (VarMap.init input) currentTask input dataType

/-- ExecEnv (source lines 86-234): resolver selection, validation, entry
lookup, main loop. -/
def ExecEnv (env : Env) (chain : ChainDefinition) (input : Value)
    (dataType : DataType) (fuel : Nat) : List Event × ExecOutcome :=
  match resolvePolicy chain with
  | .error e => ([], .fail e)
  | .ok resolver => execValidated env resolver chain input dataType fuel

/-! ### Captured execution state

The `ExecEnv` in the provided `taskengine` source returns only
`(finalOutput, error)`, yet its in-repository callers (`execapi`'s task
route reading `capturedStateUnits`, `githubservice`'s three-value
`ExecEnv` call) use an executor that also returns the captured state
sequence; that version of the engine is not among the provided sources.
The definitions below model it from the spec (§4.1 "Captured state",
§6.3): the control flow is exactly `execLoop`'s, extended with one
captured unit per task visit. -/

/-- Modelled from the spec: one captured state unit (§6.3), recording
`taskID`, `taskType`, `inputType`, `outputType`, the transition
evaluation string, the attempt duration, and the optional error. -/
structure CapturedStateUnit where
  taskID : String
  taskType : String
  inputType : DataType
  outputType : DataType
  transition : String
  duration : Nat
  error : Option String
deriving DecidableEq, Repr

/-- Modelled from the spec: the captured unit for a visit of
`currentTask` that received `inputType` and ended with outcome `o`. -/
def captureUnit (currentTask : ChainTask) (inputType : DataType)
    (o : TaskOutcome) : CapturedStateUnit :=
  ⟨currentTask.id, currentTask.taskType, inputType, o.outputType,
   o.transitionEval, o.duration, o.err⟩

/-- Modelled from the spec: the body of one task visit of the
captured-state loop, after template rendering; `recur` is the
continuation for the following visits. -/
def execStepS (env : Env) (tasks : List ChainTask)
    (recur : VarMap → ChainTask → Value → DataType →
      List Event × List CapturedStateUnit × ExecOutcome)
    (resolver : Policy) (vars : VarMap) (currentTask : ChainTask)
    (output : Value) (outputType : DataType) :
    List Event × List CapturedStateUnit × ExecOutcome :=
  let ra := runAttempts env resolver currentTask output outputType 0 (maxRetriesOf currentTask)
  match ra.2 with
  | .fatal msg => (ra.1, [], .fail msg)
  | .done o =>
    let unit := captureUnit currentTask outputType o
    match o.err with
    | some e =>
      if currentTask.transition.onFailure ≠ "" then
        match findTaskByID tasks currentTask.transition.onFailure with
        | .error fe => (ra.1, [unit], .fail ("error transition target not found: " ++ fe))
        | .ok nt =>
          let p := recur vars nt o.output o.outputType
          (ra.1 ++ Event.nextTaskOnError currentTask.id nt.id :: p.1,
           unit :: p.2.1, p.2.2)
      else
        (ra.1, [unit], .fail ("task " ++ currentTask.id ++ " failed after " ++
          toString (maxRetriesOf currentTask) ++ " retries: " ++ e))
    | none =>
      let vars2 := (vars.insert "previous_output" o.output).insert currentTask.id o.output
      let printed : Except String (List Event) :=
        if currentTask.print ≠ "" then
          match env.render currentTask.print vars2 with
          | .error e => .error ("task " ++ currentTask.id ++ ": print template error: " ++ e)
          | .ok msg => .ok [Event.stdoutPrint msg]
        else .ok []
      match printed with
      | .error e => (ra.1, [unit], .fail e)
      | .ok pevs =>
        match evaluateTransitions currentTask.transition o.transitionEval with
        | .error e =>
          (ra.1 ++ pevs, [unit], .fail ("task " ++ currentTask.id ++ ": transition error: " ++ e))
        | .ok nextTaskID =>
          if nextTaskID = "" ∨ nextTaskID = TermEnd then
            (ra.1 ++ pevs ++ [Event.chainComplete], [unit], .ok o.output)
          else
            match findTaskByID tasks nextTaskID with
            | .error fe =>
              (ra.1 ++ pevs ++ [Event.nextTask currentTask.id nextTaskID], [unit],
               .fail ("next task " ++ nextTaskID ++ " not found: " ++ fe))
            | .ok nt =>
              let p := recur vars2 nt o.output o.outputType
              (ra.1 ++ pevs ++ Event.nextTask currentTask.id nextTaskID :: p.1,
               unit :: p.2.1, p.2.2)

/-- Modelled from the spec: the main loop extended with captured state,
appending one unit per task visit (a visit is a completed retry loop;
a fatal template or timeout-parse error precedes any attempt and so
captures nothing for that task). -/
def execLoopS (env : Env) (resolver : Policy) (tasks : List ChainTask) :
    Nat → VarMap → ChainTask → Value → DataType →
      List Event × List CapturedStateUnit × ExecOutcome
  | 0, _, _, _, _ => ([], [], .outOfFuel)
  | fuel + 1, vars, currentTask, output0, outputType =>
    let rendered : Except String Value :=
      if outputType = DataType.string ∧ currentTask.template ≠ "" then
        match env.render currentTask.template vars with
        | .error e => .error ("task " ++ currentTask.id ++ ": template error: " ++ e)
        | .ok s =>
          if s = "" then .error ("task " ++ currentTask.id ++ ": template rendered empty string")
          else .ok (Value.str s)
      else .ok output0
    match rendered with
    | .error e => ([], [], .fail e)
    | .ok output =>
      execStepS env tasks
        (fun vs ct w dt2 => execLoopS env resolver tasks fuel vs ct w dt2)
        resolver vars currentTask output outputType

/-- Modelled from the spec: the three-value `ExecEnv` used by the
repository's callers, returning the captured state sequence alongside
the final output. -/
def ExecEnvS (env : Env) (chain : ChainDefinition) (input : Value)
    (dataType : DataType) (fuel : Nat) :
    List Event × List CapturedStateUnit × ExecOutcome :=
  match resolvePolicy chain with
  | .error e => ([], [], .fail e)
  | .ok resolver =>
    match validateChain chain.tasks with
    | some e => ([], [], .fail e)
    | none =>
      match chain.tasks with
      | [] => ([], [], .fail "chain has no tasks")
      | t0 :: _ =>
        match findTaskByID chain.tasks t0.id with
        | .error e => ([], [], .fail e)
        | .ok currentTask =>
          execLoopS env resolver chain.tasks fuel (VarMap.init input) currentTask input dataType

/-- Number of `task_attempt` events in a trace. -/
def countAttempts (evs : List Event) : Nat :=
  (evs.filter fun e =>
    match e with
    | .taskAttempt _ _ _ => true
    | _ => false).length

/-- Number of task visits in a trace: each visit's retry loop emits
exactly one `task_attempt` event with retry index 0. -/
def countVisits (evs : List Event) : Nat :=
  (evs.filter fun e =>
    match e with
    | .taskAttempt _ 0 _ => true
    | _ => false).length

section ScratchChecks

example : parseNumber "5" = .ok ⟨5, 0⟩ := by decide
example : parseNumber "-7" = .ok ⟨-7, 0⟩ := by decide
example : parseNumber "7.5" = .ok ⟨75, -1⟩ := by decide
example : (parseNumber "x").isOk = false := by decide
example : compare "in_range" "5" "1-10" = .ok true := by decide
example : compare "in_range" "10" "1-10" = .ok true := by decide
example : compare "in_range" "11" "1-10" = .ok false := by decide
example : compare ">" "5" "5" = .ok false := by decide
example : compare ">" "6" "5" = .ok true := by decide
example : (compare "in_range" "0" "-5-10").isOk = false := by decide
example : compare "equals" "x" "x" = .ok true := by decide
example : compare "contains" "abc" "b" = .ok true := by decide
example : compare "starts_with" "abc" "ab" = .ok true := by decide
example : compare "ends_with" "abc" "bc" = .ok true := by decide

def testEnv : Env :=
  ⟨fun _ _ v dt _ => ⟨v, dt, (match v with | .str s => s | .box n => toString n), 1, none⟩,
   fun tpl _ => .ok tpl,
   fun _ => .error "bad duration"⟩

def rawTask : ChainTask :=
  ⟨"t", "raw_string", "", "", "", 0, ⟨[⟨"default", "", "end"⟩], ""⟩⟩

def testChain : ChainDefinition := ⟨"", [rawTask]⟩

example :
    ExecEnv testEnv testChain (Value.str "hello") DataType.string 5 =
      ([Event.taskAttempt "t" 0 "raw_string", Event.attemptSuccess "t", Event.chainComplete],
       .ok (Value.str "hello")) := by decide

example :
    (ExecEnvS testEnv testChain (Value.str "hello") DataType.string 5).2.1.length = 1 := by decide

end ScratchChecks

/-! ## Claim theorems -/

/-- Reduction of `compare` at the `in_range` operator. -/
theorem compare_in_range_eq (eval whenCond : String) :
    compare OpInRange eval whenCond =
      (match splitOnChar '-' whenCond.toList with
      | [p0, p1] =>
        match parseNumber (String.mk (trimChars p0)) with
        | .error e => .error ("invalid lower bound: " ++ e)
        | .ok lower =>
          match parseNumber (String.mk (trimChars p1)) with
          | .error e => .error ("invalid upper bound: " ++ e)
          | .ok upper =>
            match parseNumber eval with
            | .error e => .error e
            | .ok resNum => .ok (decide (resNum ≥ lower ∧ resNum ≤ upper))
      | _ => .error ("invalid between range format: " ++ whenCond)) := rfl

/-- Reduction of `compare` at the `>` operator. -/
theorem compare_gt_eq (eval whenCond : String) :
    compare OpGt eval whenCond =
      (match parseNumber eval with
      | .error e => .error e
      | .ok resNum =>
        match parseNumber whenCond with
        | .error e => .error e
        | .ok targetNum => .ok (decide (resNum > targetNum))) := rfl

/-- Reduction of `compare` at the `greater_than` operator. -/
theorem compare_greater_than_eq (eval whenCond : String) :
    compare OpGreaterThan eval whenCond = compare OpGt eval whenCond := rfl

/-- Reduction of `compare` at the `<` operator. -/
theorem compare_lt_eq (eval whenCond : String) :
    compare OpLt eval whenCond =
      (match parseNumber eval with
      | .error e => .error e
      | .ok resNum =>
        match parseNumber whenCond with
        | .error e => .error e
        | .ok targetNum => .ok (decide (resNum < targetNum))) := rfl

/-- Reduction of `compare` at the `less_than` operator. -/
theorem compare_less_than_eq (eval whenCond : String) :
    compare OpLessThan eval whenCond = compare OpLt eval whenCond := rfl

/-- C5: the `in_range` operator with a well-formed `"lo-hi"` bound is
inclusive on both endpoints; `>` and `greater_than` are strictly greater;
numeric operands go through `parseNumber` (integer syntax first, float
syntax as fallback), and a parse failure of either operand is an error,
not a boolean. -/
theorem c5_compare_numeric_semantics :
    (∀ eval whenCond p0 p1 lo hi x,
        splitOnChar '-' whenCond.toList = [p0, p1] →
        parseNumber (String.mk (trimChars p0)) = .ok lo →
        parseNumber (String.mk (trimChars p1)) = .ok hi →
        parseNumber eval = .ok x →
        compare OpInRange eval whenCond = .ok (decide (x ≥ lo ∧ x ≤ hi)))
  ∧ (∀ eval whenCond x y,
        parseNumber eval = .ok x → parseNumber whenCond = .ok y →
        compare OpGt eval whenCond = .ok (decide (x > y)) ∧
        compare OpGreaterThan eval whenCond = .ok (decide (x > y)))
  ∧ (∀ s i, parseInt64 s = some i → parseNumber s = .ok ⟨i, 0⟩)
  ∧ (∀ s, parseInt64 s = none → parseFloatD s = none →
        parseNumber s = .error ("invalid number: " ++ s))
  ∧ (∀ op eval whenCond e,
        (op = OpGt ∨ op = OpGreaterThan ∨ op = OpLt ∨ op = OpLessThan) →
        parseNumber eval = .error e → compare op eval whenCond = .error e)
  ∧ (∀ op eval whenCond x e,
        (op = OpGt ∨ op = OpGreaterThan ∨ op = OpLt ∨ op = OpLessThan) →
        parseNumber eval = .ok x → parseNumber whenCond = .error e →
        compare op eval whenCond = .error e) := by
  refine ⟨?_, ?_, ?_, ?_, ?_, ?_⟩
  · intro eval whenCond p0 p1 lo hi x hsplit hlo hhi hx
    rw [compare_in_range_eq, hsplit]
    simp only [hlo, hhi, hx]
  · intro eval whenCond x y hx hy
    constructor
    · rw [compare_gt_eq]
      simp only [hx, hy]
    · rw [compare_greater_than_eq, compare_gt_eq]
      simp only [hx, hy]
  · intro s i h
    simp only [parseNumber, h]
  · intro s h1 h2
    simp only [parseNumber, h1, h2]
  · intro op eval whenCond e hop he
    rcases hop with h | h | h | h <;> subst h
    · rw [compare_gt_eq]
      simp only [he]
    · rw [compare_greater_than_eq, compare_gt_eq]
      simp only [he]
    · rw [compare_lt_eq]
      simp only [he]
    · rw [compare_less_than_eq, compare_lt_eq]
      simp only [he]
  · intro op eval whenCond x e hop hx he
    rcases hop with h | h | h | h <;> subst h
    · rw [compare_gt_eq]
      simp only [hx, he]
    · rw [compare_greater_than_eq, compare_gt_eq]
      simp only [hx, he]
    · rw [compare_lt_eq]
      simp only [hx, he]
    · rw [compare_less_than_eq, compare_lt_eq]
      simp only [hx, he]

/-- Witness for C5 at concrete inputs: both endpoints of `1-10` are in
range, `>` is strict at equality, and a malformed operand errors. -/
theorem c5_witness :
    compare OpInRange "5" "1-10" = .ok true ∧
    compare OpInRange "10" "1-10" = .ok true ∧
    compare OpInRange "1" "1-10" = .ok true ∧
    compare OpInRange "11" "1-10" = .ok false ∧
    compare OpGt "5" "5" = .ok false ∧
    compare OpGreaterThan "6" "5" = .ok true ∧
    compare OpGt "x" "5" = .error "invalid number: x" := by
  have h1 := c5_compare_numeric_semantics.1 "5" "1-10" ['1'] ['1', '0']
    ⟨1, 0⟩ ⟨10, 0⟩ ⟨5, 0⟩ (by decide) (by decide) (by decide) (by decide)
  have h2 := c5_compare_numeric_semantics.1 "10" "1-10" ['1'] ['1', '0']
    ⟨1, 0⟩ ⟨10, 0⟩ ⟨10, 0⟩ (by decide) (by decide) (by decide) (by decide)
  have h3 := c5_compare_numeric_semantics.1 "1" "1-10" ['1'] ['1', '0']
    ⟨1, 0⟩ ⟨10, 0⟩ ⟨1, 0⟩ (by decide) (by decide) (by decide) (by decide)
  have h4 := c5_compare_numeric_semantics.1 "11" "1-10" ['1'] ['1', '0']
    ⟨1, 0⟩ ⟨10, 0⟩ ⟨11, 0⟩ (by decide) (by decide) (by decide) (by decide)
  have h5 := (c5_compare_numeric_semantics.2.1 "5" "5" ⟨5, 0⟩ ⟨5, 0⟩
    (by decide) (by decide)).1
  have h6 := (c5_compare_numeric_semantics.2.1 "6" "5" ⟨6, 0⟩ ⟨5, 0⟩
    (by decide) (by decide)).2
  have h7 := c5_compare_numeric_semantics.2.2.2.2.1 OpGt "x" "5" "invalid number: x"
    (Or.inl rfl) (by decide)
  exact ⟨h1.trans (by decide), h2.trans (by decide), h3.trans (by decide),
    h4.trans (by decide), h5.trans (by decide), h6.trans (by decide), h7⟩

/-- Splitting a character list never yields the empty list of pieces. -/
theorem splitOnChar_ne_nil (sep : Char) (cs : List Char) : splitOnChar sep cs ≠ [] := by
  induction cs with
  | nil => simp [splitOnChar]
  | cons c rest ih =>
    simp only [splitOnChar]
    split
    · simp
    · split <;> simp

/-- C10: `compare` with `in_range` errors whenever splitting `when` on
`'-'` does not give exactly two pieces; moreover any `when` whose split
begins with an empty piece — as every range written with a negative
lower bound does, since its first character is `'-'` — errors even when
the split has exactly two pieces, because the empty lower bound fails to
parse.  In particular `"-5-10"` errors, so ranges with negative lower
bounds are never evaluated. -/
theorem c10_in_range_split_shape :
    (∀ eval whenCond, (splitOnChar '-' whenCond.toList).length ≠ 2 →
        compare OpInRange eval whenCond =
          .error ("invalid between range format: " ++ whenCond))
  ∧ (∀ eval whenCond p1, splitOnChar '-' whenCond.toList = [] :: p1 →
        ∃ e, compare OpInRange eval whenCond = .error e)
  ∧ compare OpInRange "0" "-5-10" =
      .error ("invalid between range format: " ++ "-5-10") := by
  refine ⟨?_, ?_, by decide⟩
  · intro eval whenCond h
    rw [compare_in_range_eq]
    cases hs : splitOnChar '-' whenCond.toList with
    | nil => rfl
    | cons a t =>
      cases t with
      | nil => rfl
      | cons b t2 =>
        cases t2 with
        | nil => exact absurd (by rw [hs]; rfl) h
        | cons c t3 => rfl
  · intro eval whenCond p1 hs
    rw [compare_in_range_eq, hs]
    cases p1 with
    | nil => exact ⟨_, rfl⟩
    | cons q t =>
      cases t with
      | nil => exact ⟨_, rfl⟩
      | cons q2 t2 => exact ⟨_, rfl⟩

/-- A branch matches when its operator is non-default and its comparison
returns ok true. -/
def branchMatches (eval : String) (b : TransitionBranch) : Bool :=
  b.operator != OpDefault &&
    (match compare b.operator eval b.whenCond with
     | .ok true => true
     | _ => false)

/-- The default-scanning loop returns the first branch whose operator is
the default literal. -/
theorem defaultLoop_eq_find (bs : List TransitionBranch) :
    defaultLoop bs =
      (bs.find? (fun b => b.operator == "default")).map TransitionBranch.goto := by
  induction bs with
  | nil => rfl
  | cons b t ih =>
    simp only [defaultLoop, List.find?]
    by_cases h : b.operator = "default"
    · simp [h]
    · have hb : (b.operator == "default") = false := by simp [h]
      simp [h, hb, ih]

/-- When no branch comparison errors, the first loop returns the first
matching non-default branch. -/
theorem firstMatchLoop_eq_find (eval : String) (bs : List TransitionBranch)
    (hok : ∀ b ∈ bs, b.operator ≠ OpDefault →
        (compare b.operator eval b.whenCond).isOk = true) :
    firstMatchLoop eval bs =
      .ok ((bs.find? (branchMatches eval)).map TransitionBranch.goto) := by
  induction bs with
  | nil => rfl
  | cons b t ih =>
    have hok_t : ∀ x ∈ t, x.operator ≠ OpDefault →
        (compare x.operator eval x.whenCond).isOk = true :=
      fun x hx => hok x (List.mem_cons_of_mem _ hx)
    simp only [firstMatchLoop, List.find?]
    by_cases hd : b.operator = OpDefault
    · have hm : branchMatches eval b = false := by simp [branchMatches, hd]
      rw [if_pos hd, hm]
      exact ih hok_t
    · rw [if_neg hd]
      have hco := hok b (List.mem_cons_self b t) hd
      cases hc : compare b.operator eval b.whenCond with
      | error e => rw [hc] at hco; simp [Except.isOk, Except.toBool] at hco
      | ok r =>
        cases r with
        | true =>
          have hm : branchMatches eval b = true := by
            simp [branchMatches, hd, hc]
          rw [hm]
          rfl
        | false =>
          have hm : branchMatches eval b = false := by
            simp [branchMatches, hd, hc]
          rw [hm]
          exact ih hok_t

/-- C3 (amended): when no non-default branch's comparison errors,
`evaluateTransitions` returns the goto of the first non-default branch
matching the evaluation in declared order; a default branch's goto is
returned only when no non-default branch matches, regardless of the
default's position; with no match and no default it returns the error
"no matching transition found".  (The amendment: an error from an
earlier non-default branch's comparison is returned immediately, even if
a later branch would match — see the counterexample.) -/
theorem c3_transition_evaluation (t : TaskTransition) (eval : String)
    (hok : ∀ b ∈ t.branches, b.operator ≠ OpDefault →
        (compare b.operator eval b.whenCond).isOk = true) :
    evaluateTransitions t eval =
      match (t.branches.find? (branchMatches eval)).map TransitionBranch.goto with
      | some g => .ok g
      | none =>
        match (t.branches.find? (fun b => b.operator == "default")).map
            TransitionBranch.goto with
        | some g => .ok g
        | none => .error "no matching transition found" := by
  unfold evaluateTransitions
  rw [firstMatchLoop_eq_find eval t.branches hok, defaultLoop_eq_find]
  cases (t.branches.find? (branchMatches eval)).map TransitionBranch.goto with
  | some g => rfl
  | none =>
    cases (t.branches.find? (fun b => b.operator == "default")).map
        TransitionBranch.goto with
    | some g => rfl
    | none => rfl

/-- C3 counterexample: the second branch matches the evaluation, but the
first branch's comparison errors (its operand does not parse), so the
code returns the comparison error instead of the matching branch's goto,
refuting the claim as universally stated. -/
theorem c3_counterexample :
    evaluateTransitions ⟨[⟨">", "abc", "t1"⟩, ⟨"equals", "x", "t2"⟩], ""⟩ "x"
        = .error "invalid number: x"
      ∧ compare "equals" "x" "x" = .ok true := by decide

/-- Witness for C3: a default branch listed first does not shadow a
later matching non-default branch, and the first of two matching
branches wins. -/
theorem c3_witness :
    evaluateTransitions
        ⟨[⟨"default", "", "d"⟩, ⟨"equals", "b", "t2"⟩, ⟨"equals", "b", "t3"⟩], ""⟩ "b"
      = .ok "t2" := by
  have h := c3_transition_evaluation
    ⟨[⟨"default", "", "d"⟩, ⟨"equals", "b", "t2"⟩, ⟨"equals", "b", "t3"⟩], ""⟩ "b"
    (by decide)
  exact h.trans (by decide)

/-- The validation loop accepts exactly the task lists with no empty and
no reserved id. -/
theorem validateLoop_none_iff (ts : List ChainTask) :
    validateLoop ts = none ↔ ∀ t ∈ ts, t.id ≠ "" ∧ t.id ≠ TermEnd := by
  induction ts with
  | nil => simp [validateLoop]
  | cons t rest ih =>
    simp only [validateLoop]
    by_cases h1 : t.id = ""
    · simp [h1]
    · by_cases h2 : t.id = TermEnd
      · simp [h1, h2, TermEnd]
      · simp [h1, h2, ih]

/-- C2 (amended): validation before the first task executes rejects the
chain exactly when the task list is empty or some task id is the empty
string or the reserved terminal `end`; duplicate task ids and branch
gotos that name no existing task are accepted by validation (the
counterexample exhibits both; an unknown goto only surfaces at runtime
as a "next task not found" failure). -/
theorem c2_validation_scope :
    (∀ ts, validateChain ts = none ↔
        (ts ≠ [] ∧ ∀ t ∈ ts, t.id ≠ "" ∧ t.id ≠ TermEnd))
  ∧ (∀ env chain input dt fuel p e,
        resolvePolicy chain = .ok p →
        validateChain chain.tasks = some e →
        ExecEnv env chain input dt fuel = ([], .fail e)) := by
  constructor
  · intro ts
    unfold validateChain
    by_cases h : ts.isEmpty
    · have hnil : ts = [] := by
        cases ts with
        | nil => rfl
        | cons a t => simp [List.isEmpty] at h
      simp [h, hnil]
    · have hne : ts ≠ [] := by
        intro hh
        subst hh
        simp at h
      simp [h, hne, validateLoop_none_iff]
  · intro env chain input dt fuel p e hp he
    unfold ExecEnv
    rw [hp]
    unfold execValidated
    rw [he]

/-- C2 counterexample: a chain whose two tasks share the id `"a"` and
whose only branch goto names no task (and is not `end`) passes
validation. -/
theorem c2_counterexample :
    validateChain
      [⟨"a", "raw_string", "", "", "", 0, ⟨[⟨"default", "", "nowhere"⟩], ""⟩⟩,
       ⟨"a", "raw_string", "", "", "", 0, ⟨[], ""⟩⟩] = none := by decide

/-- Witness for C2: a well-formed singleton chain is accepted; the empty
chain is rejected by `ExecEnv` before any task runs. -/
theorem c2_witness :
    validateChain [rawTask] = none ∧
    ExecEnv testEnv ⟨"", []⟩ (Value.str "x") DataType.string 3 =
      ([], .fail "chain has no tasks") := by
  exact ⟨(c2_validation_scope.1 [rawTask]).mpr ⟨by decide, by decide⟩,
    c2_validation_scope.2 testEnv ⟨"", []⟩ (Value.str "x") DataType.string 3
      Policy.random "chain has no tasks" (by decide) (by decide)⟩

/-- C7: an empty routing strategy selects the random resolver policy
(the rest of the execution is exactly `execValidated` under
`Policy.random`, the policy handed to every task-executor call); a
non-empty strategy that parses to no known policy makes `ExecEnv` fail
with the parse error and an empty effect trace — for every chain, even
an invalid one — so the failure precedes validation and any task
execution. -/
theorem c7_resolver_selection :
    (∀ env chain input dt fuel, chain.routingStrategy = "" →
        ExecEnv env chain input dt fuel =
          execValidated env Policy.random chain input dt fuel)
  ∧ (∀ env chain input dt fuel, chain.routingStrategy ≠ "" →
        PolicyFromString chain.routingStrategy = none →
        ExecEnv env chain input dt fuel =
          ([], .fail ("unknown policy: " ++ chain.routingStrategy))) := by
  constructor
  · intro env chain input dt fuel h
    unfold ExecEnv resolvePolicy
    rw [h]
    rfl
  · intro env chain input dt fuel h hp
    unfold ExecEnv resolvePolicy
    have hlen : chain.routingStrategy.length > 0 := by
      cases hs : chain.routingStrategy with
      | mk l =>
        cases l with
        | nil => exact absurd hs h
        | cons a t => simp [String.length, hs]
    rw [if_pos hlen, hp]

/-- Witness for C7: the empty strategy runs under the random policy; an
unknown strategy fails even though the chain body is itself invalid
(empty task list), showing validation was never reached. -/
theorem c7_witness :
    ExecEnv testEnv testChain (Value.str "hi") DataType.string 4 =
      execValidated testEnv Policy.random testChain (Value.str "hi") DataType.string 4
  ∧ ExecEnv testEnv ⟨"bogus", []⟩ (Value.str "hi") DataType.string 4 =
      ([], .fail ("unknown policy: " ++ "bogus")) := by
  exact ⟨c7_resolver_selection.1 testEnv testChain (Value.str "hi") DataType.string 4 rfl,
    c7_resolver_selection.2 testEnv ⟨"bogus", []⟩ (Value.str "hi") DataType.string 4
      (by decide) (by decide)⟩

/-- C8: a transition evaluation yielding the empty-string goto (as a
matched default branch with goto `""` does) terminates the chain
successfully exactly as goto `end` does: the conclusion is the same for
both alternatives of `hg` — the current task's output becomes the final
output and a `chain_complete` event is emitted; no transition error is
raised. -/
theorem c8_empty_goto_terminates (env : Env) (res : Policy) (tasks : List ChainTask)
    (fuel : Nat) (vars : VarMap) (current : ChainTask) (v : Value) (dt : DataType)
    (g : String)
    (htpl : current.template = "") (hto : current.timeout = "")
    (hsucc : (env.exec res current v dt 0).err = none)
    (hprint : current.print = "")
    (heval : evaluateTransitions current.transition
        (env.exec res current v dt 0).transitionEval = .ok g)
    (hg : g = "" ∨ g = TermEnd) :
    execLoop env res tasks (fuel + 1) vars current v dt =
      ([.taskAttempt current.id 0 current.taskType, .attemptSuccess current.id,
        .chainComplete],
       .ok (env.exec res current v dt 0).output) := by
  have hto2 : timeoutCheck env current = none := by simp [timeoutCheck, hto]
  have hra : runAttempts env res current v dt 0 (maxRetriesOf current) =
      ([.taskAttempt current.id 0 current.taskType, .attemptSuccess current.id],
       .done (env.exec res current v dt 0)) := by
    rw [runAttempts, hto2]
    simp only [hsucc]
  rcases hg with h | h <;> subst h <;>
    simp [execLoop, hra, hsucc, heval, hprint, htpl, TermEnd]

/-- Witness for C8: a default branch whose goto is the empty string
completes the chain with the task's output. -/
theorem c8_witness :
    execLoop testEnv Policy.random
        [⟨"t", "raw_string", "", "", "", 0, ⟨[⟨"default", "", ""⟩], ""⟩⟩] 3
        (VarMap.init (Value.str "hello"))
        ⟨"t", "raw_string", "", "", "", 0, ⟨[⟨"default", "", ""⟩], ""⟩⟩
        (Value.str "hello") DataType.string =
      ([.taskAttempt "t" 0 "raw_string", .attemptSuccess "t", .chainComplete],
       .ok (Value.str "hello")) := by
  have h := c8_empty_goto_terminates testEnv Policy.random
    [⟨"t", "raw_string", "", "", "", 0, ⟨[⟨"default", "", ""⟩], ""⟩⟩] 2
    (VarMap.init (Value.str "hello"))
    ⟨"t", "raw_string", "", "", "", 0, ⟨[⟨"default", "", ""⟩], ""⟩⟩
    (Value.str "hello") DataType.string ""
    rfl rfl rfl rfl (by decide) (Or.inl rfl)
  exact h

/-- C6 (amended): after the task succeeds, a non-empty print template is
rendered against the updated variable scope and the result is written to
standard output (the source's `fmt.Println`); it is not emitted as an
activity-tracker event. -/
theorem c6_print_goes_to_stdout (env : Env) (res : Policy) (tasks : List ChainTask)
    (fuel : Nat) (vars : VarMap) (current : ChainTask) (v : Value) (dt : DataType)
    (msg g : String)
    (htpl : current.template = "") (hto : current.timeout = "")
    (hsucc : (env.exec res current v dt 0).err = none)
    (hprint : current.print ≠ "")
    (hrender : env.render current.print
        ((vars.insert "previous_output" (env.exec res current v dt 0).output).insert
          current.id (env.exec res current v dt 0).output) = .ok msg)
    (heval : evaluateTransitions current.transition
        (env.exec res current v dt 0).transitionEval = .ok g)
    (hg : g = "" ∨ g = TermEnd) :
    execLoop env res tasks (fuel + 1) vars current v dt =
      ([.taskAttempt current.id 0 current.taskType, .attemptSuccess current.id,
        .stdoutPrint msg, .chainComplete],
       .ok (env.exec res current v dt 0).output)
  ∧ Event.isTrackerEvent (Event.stdoutPrint msg) = false := by
  have hto2 : timeoutCheck env current = none := by simp [timeoutCheck, hto]
  have hra : runAttempts env res current v dt 0 (maxRetriesOf current) =
      ([.taskAttempt current.id 0 current.taskType, .attemptSuccess current.id],
       .done (env.exec res current v dt 0)) := by
    rw [runAttempts, hto2]
    simp only [hsucc]
  refine ⟨?_, rfl⟩
  rcases hg with h | h <;> subst h <;>
    simp [execLoop, hra, hsucc, heval, hprint, hrender, htpl, TermEnd]

/-- C6 counterexample: with a non-empty print template, the whole effect
trace of a successful run contains the rendered print only as the
`fmt.Println` stdout effect; every tracker event in the trace is an
attempt or completion event, none carrying the print output, refuting
the claim that the print is emitted to the activity tracker and not to
standard output. -/
theorem c6_counterexample :
    (ExecEnv testEnv
        ⟨"", [⟨"t", "raw_string", "", "PRINT", "", 0, ⟨[⟨"default", "", "end"⟩], ""⟩⟩]⟩
        (Value.str "hello") DataType.string 5).1 =
      [Event.taskAttempt "t" 0 "raw_string", Event.attemptSuccess "t",
       Event.stdoutPrint "PRINT", Event.chainComplete]
  ∧ Event.isTrackerEvent (Event.stdoutPrint "PRINT") = false
  ∧ ((ExecEnv testEnv
        ⟨"", [⟨"t", "raw_string", "", "PRINT", "", 0, ⟨[⟨"default", "", "end"⟩], ""⟩⟩]⟩
        (Value.str "hello") DataType.string 5).1.filter
          (fun e => !e.isTrackerEvent)) = [Event.stdoutPrint "PRINT"] := by
  refine ⟨by decide, rfl, by decide⟩

/-- Witness for C6 (amended): the general theorem applied to the
concrete print chain. -/
theorem c6_witness :
    execLoop testEnv Policy.random
        [⟨"t", "raw_string", "", "PRINT", "", 0, ⟨[⟨"default", "", "end"⟩], ""⟩⟩] 3
        (VarMap.init (Value.str "hello"))
        ⟨"t", "raw_string", "", "PRINT", "", 0, ⟨[⟨"default", "", "end"⟩], ""⟩⟩
        (Value.str "hello") DataType.string =
      ([.taskAttempt "t" 0 "raw_string", .attemptSuccess "t",
        .stdoutPrint "PRINT", .chainComplete],
       .ok (Value.str "hello")) := by
  have h := c6_print_goes_to_stdout testEnv Policy.random
    [⟨"t", "raw_string", "", "PRINT", "", 0, ⟨[⟨"default", "", "end"⟩], ""⟩⟩] 2
    (VarMap.init (Value.str "hello"))
    ⟨"t", "raw_string", "", "PRINT", "", 0, ⟨[⟨"default", "", "end"⟩], ""⟩⟩
    (Value.str "hello") DataType.string "PRINT" "end"
    rfl rfl rfl (by decide) rfl (by decide) (Or.inr rfl)
  exact h.1

/-- With an executor failing at every attempt, the retry loop emits one
`task_attempt` event per iteration — `remaining + 1` in total — and ends
with the outcome of the last attempt. -/
theorem runAttempts_all_fail (env : Env) (res : Policy) (task : ChainTask)
    (v : Value) (dt : DataType)
    (hto : timeoutCheck env task = none)
    (hfail : ∀ k, ((env.exec res task v dt k).err).isSome = true) :
    ∀ remaining retry,
      countAttempts (runAttempts env res task v dt retry remaining).1 = remaining + 1
    ∧ (runAttempts env res task v dt retry remaining).2 =
        .done (env.exec res task v dt (retry + remaining)) := by
  intro remaining
  induction remaining with
  | zero =>
    intro retry
    rw [runAttempts, hto]
    obtain ⟨e, he⟩ := Option.isSome_iff_exists.mp (hfail retry)
    simp only [he]
    exact ⟨rfl, rfl⟩
  | succ r ih =>
    intro retry
    rw [runAttempts, hto]
    obtain ⟨e, he⟩ := Option.isSome_iff_exists.mp (hfail retry)
    simp only [he]
    have hr := ih (retry + 1)
    constructor
    · simp only [countAttempts, List.filter] at hr ⊢
      simp [hr.1]
    · rw [hr.2]
      have : retry + 1 + r = retry + (r + 1) := by omega
      rw [this]

/-- Any run of the retry loop makes at most `remaining + 1` attempts. -/
theorem runAttempts_count_le (env : Env) (res : Policy) (task : ChainTask)
    (v : Value) (dt : DataType) :
    ∀ remaining retry,
      countAttempts (runAttempts env res task v dt retry remaining).1 ≤ remaining + 1 := by
  intro remaining
  induction remaining with
  | zero =>
    intro retry
    rw [runAttempts]
    cases hta : timeoutCheck env task with
    | some msg => simp [countAttempts]
    | none =>
      cases he : (env.exec res task v dt retry).err with
      | none => simp [he, countAttempts, List.filter]
      | some e => simp [he, countAttempts, List.filter]
  | succ r ih =>
    intro retry
    rw [runAttempts]
    cases hta : timeoutCheck env task with
    | some msg => simp [countAttempts]
    | none =>
      cases he : (env.exec res task v dt retry).err with
      | none => simp [he, countAttempts, List.filter]
      | some e =>
        have hr := ih (retry + 1)
        simp only [countAttempts, List.filter] at hr ⊢
        simp [he]
        omega

/-- C4: an executor failing at every attempt of a task with
`retry_on_failure = N ≥ 0` produces exactly `N + 1` attempt events;
afterwards, with `on_failure` unset the whole execution fails with
"task <id> failed after N retries: <err>", while with `on_failure` set
to an existing task the engine emits the error-reason `next_task` event
and continues there, the step's outcome being exactly the
continuation's — no error is surfaced. -/
theorem c4_retry_exhaustion (env : Env) (res : Policy) (tasks : List ChainTask)
    (fuel : Nat) (vars : VarMap) (current : ChainTask) (v : Value) (dt : DataType)
    (N : Int)
    (hN : current.retryOnFailure = N) (hN0 : 0 ≤ N)
    (htpl : current.template = "") (hto : current.timeout = "")
    (hfail : ∀ k, ((env.exec res current v dt k).err).isSome = true) :
    countAttempts (runAttempts env res current v dt 0 (maxRetriesOf current)).1
        = N.toNat + 1
  ∧ (current.transition.onFailure = "" →
      ∃ e, (env.exec res current v dt N.toNat).err = some e ∧
        execLoop env res tasks (fuel + 1) vars current v dt =
          ((runAttempts env res current v dt 0 (maxRetriesOf current)).1,
           .fail ("task " ++ current.id ++ " failed after " ++ toString N.toNat ++
             " retries: " ++ e)))
  ∧ (∀ nt, current.transition.onFailure ≠ "" →
      findTaskByID tasks current.transition.onFailure = .ok nt →
      execLoop env res tasks (fuel + 1) vars current v dt =
        ((runAttempts env res current v dt 0 (maxRetriesOf current)).1 ++
           Event.nextTaskOnError current.id nt.id ::
             (execLoop env res tasks fuel vars nt
               (env.exec res current v dt N.toNat).output
               (env.exec res current v dt N.toNat).outputType).1,
         (execLoop env res tasks fuel vars nt
           (env.exec res current v dt N.toNat).output
           (env.exec res current v dt N.toNat).outputType).2)) := by
  have hto2 : timeoutCheck env current = none := by simp [timeoutCheck, hto]
  have hmax : maxRetriesOf current = N.toNat := by
    unfold maxRetriesOf
    rw [hN, max_eq_left hN0]
  have hra := runAttempts_all_fail env res current v dt hto2 hfail (maxRetriesOf current) 0
  have hra2 : (runAttempts env res current v dt 0 N.toNat).2 =
      .done (env.exec res current v dt N.toNat) := by
    have h2 := hra.2
    rw [hmax] at h2
    simpa using h2
  obtain ⟨e, he⟩ := Option.isSome_iff_exists.mp (hfail N.toNat)
  refine ⟨by rw [hra.1, hmax], ?_, ?_⟩
  · intro h1
    refine ⟨e, he, ?_⟩
    simp [execLoop, htpl, hra2, he, h1, hmax]
  · intro nt h1 hfind
    simp [execLoop, htpl, hra2, he, h1, hfind, hmax]

/-- C9: a negative `retry_on_failure` is clamped to zero, so exactly one
attempt is made; and for every integer value of `retry_on_failure` the
attempt loop terminates after at most `max(retry_on_failure, 0) + 1`
iterations. -/
theorem c9_negative_retry_clamp (env : Env) (res : Policy) (task : ChainTask)
    (v : Value) (dt : DataType)
    (hneg : task.retryOnFailure < 0)
    (hto : timeoutCheck env task = none) :
    maxRetriesOf task = 0
  ∧ countAttempts (runAttempts env res task v dt 0 (maxRetriesOf task)).1 = 1
  ∧ (∀ (N : Int) (retry : Nat),
      countAttempts (runAttempts env res task v dt retry (max N 0).toNat).1 ≤
        (max N 0).toNat + 1) := by
  have hmax : maxRetriesOf task = 0 := by
    unfold maxRetriesOf
    rw [max_eq_right (le_of_lt hneg)]
    rfl
  refine ⟨hmax, ?_, fun N retry => runAttempts_count_le env res task v dt _ retry⟩
  rw [hmax, runAttempts, hto]
  cases he : (env.exec res task v dt 0).err with
  | none => simp [he, countAttempts, List.filter]
  | some e => simp [he, countAttempts, List.filter]

/-- An executor that fails every attempt with the same error. -/
def failEnv : Env :=
  ⟨fun _ _ v dt _ => ⟨v, dt, "", 1, some "boom"⟩,
   fun tpl _ => .ok tpl, fun _ => .error "bad"⟩

/-- A task with two retries and no `on_failure` target. -/
def failTask : ChainTask := ⟨"f", "raw_string", "", "", "", 2, ⟨[], ""⟩⟩

/-- Witness for C4: `retry_on_failure = 2` with a permanently failing
executor makes exactly three attempts, then fails the execution with the
exhaustion error. -/
theorem c4_witness :
    countAttempts (runAttempts failEnv Policy.random failTask (Value.str "x")
        DataType.string 0 (maxRetriesOf failTask)).1 = 3
  ∧ execLoop failEnv Policy.random [failTask] 4 (VarMap.init (Value.str "x"))
        failTask (Value.str "x") DataType.string =
      ((runAttempts failEnv Policy.random failTask (Value.str "x")
          DataType.string 0 (maxRetriesOf failTask)).1,
       .fail "task f failed after 2 retries: boom") := by
  have h := c4_retry_exhaustion failEnv Policy.random [failTask] 3
    (VarMap.init (Value.str "x")) failTask (Value.str "x") DataType.string 2
    rfl (by decide) rfl rfl (fun k => rfl)
  obtain ⟨e, he, hexec⟩ := h.2.1 rfl
  have he2 : e = "boom" := (Option.some.inj (show some "boom" = some e from he)).symm
  subst he2
  exact ⟨h.1, hexec⟩

/-- A task with a negative retry count. -/
def negTask : ChainTask := ⟨"n", "raw_string", "", "", "", -3, ⟨[], ""⟩⟩

/-- Witness for C9: `retry_on_failure = -3` clamps to zero retries and
the loop makes exactly one attempt. -/
theorem c9_witness :
    maxRetriesOf negTask = 0
  ∧ countAttempts (runAttempts testEnv Policy.random negTask (Value.str "x")
        DataType.string 0 (maxRetriesOf negTask)).1 = 1 := by
  have h := c9_negative_retry_clamp testEnv Policy.random negTask (Value.str "x")
    DataType.string (by decide) rfl
  exact ⟨h.1, h.2.1⟩

/-- A timeout string that fails to parse aborts the retry loop before
any attempt event. -/
theorem runAttempts_timeout_fatal (env : Env) (res : Policy) (task : ChainTask)
    (v : Value) (dt : DataType) (msg : String) (r m : Nat)
    (h : timeoutCheck env task = some msg) :
    runAttempts env res task v dt r m = ([], .fatal msg) := by
  rw [runAttempts, h]

/-- With a parsable (or absent) timeout, the retry loop always completes
with the outcome of some attempt. -/
theorem runAttempts_done (env : Env) (res : Policy) (task : ChainTask)
    (v : Value) (dt : DataType)
    (h : timeoutCheck env task = none) :
    ∀ m r, ∃ o, (runAttempts env res task v dt r m).2 = .done o := by
  intro m
  induction m with
  | zero =>
    intro r
    rw [runAttempts, h]
    cases he : (env.exec res task v dt r).err with
    | none => exact ⟨env.exec res task v dt r, by simp [he]⟩
    | some e => exact ⟨env.exec res task v dt r, by simp [he]⟩
  | succ k ih =>
    intro r
    rw [runAttempts, h]
    cases he : (env.exec res task v dt r).err with
    | none => exact ⟨env.exec res task v dt r, by simp [he]⟩
    | some e =>
      obtain ⟨o, ho⟩ := ih (r + 1)
      exact ⟨o, by simp [he, ho]⟩

/-- Visit counting distributes over trace concatenation. -/
theorem countVisits_append (a b : List Event) :
    countVisits (a ++ b) = countVisits a + countVisits b := by
  simp [countVisits, List.filter_append]

/-- Iterations with a positive retry index contribute no visit marker. -/
theorem runAttempts_visits_pos (env : Env) (res : Policy) (task : ChainTask)
    (v : Value) (dt : DataType) :
    ∀ m r, countVisits (runAttempts env res task v dt (r + 1) m).1 = 0 := by
  intro m
  induction m with
  | zero =>
    intro r
    rw [runAttempts]
    cases ht : timeoutCheck env task with
    | some msg => simp [countVisits]
    | none =>
      cases he : (env.exec res task v dt (r + 1)).err with
      | none => simp [he, countVisits, List.filter]
      | some e => simp [he, countVisits, List.filter]
  | succ k ih =>
    intro r
    rw [runAttempts]
    cases ht : timeoutCheck env task with
    | some msg => simp [countVisits]
    | none =>
      cases he : (env.exec res task v dt (r + 1)).err with
      | none => simp [he, countVisits, List.filter]
      | some e =>
        have hr := ih (r + 1)
        simp only [countVisits, List.filter] at hr ⊢
        simp [he, hr]

/-- A retry loop started at retry index 0 emits exactly one visit
marker, and that marker — the `task_attempt` event with retry 0 for the
visited task — heads its trace. -/
theorem runAttempts_visits_zero (env : Env) (res : Policy) (task : ChainTask)
    (v : Value) (dt : DataType)
    (h : timeoutCheck env task = none) (m : Nat) :
    countVisits (runAttempts env res task v dt 0 m).1 = 1
  ∧ ∃ t, (runAttempts env res task v dt 0 m).1 =
      Event.taskAttempt task.id 0 task.taskType :: t := by
  rw [runAttempts, h]
  cases he : (env.exec res task v dt 0).err with
  | none =>
    constructor
    · simp [he, countVisits, List.filter]
    · exact ⟨[Event.attemptSuccess task.id], by simp [he]⟩
  | some e =>
    cases m with
    | zero =>
      constructor
      · simp [he, countVisits, List.filter]
      · exact ⟨[Event.attemptError task.id e], by simp [he]⟩
    | succ k =>
      constructor
      · have hp := runAttempts_visits_pos env res task v dt k 0
        simp only [countVisits, List.filter] at hp ⊢
        simp [he, hp]
      · exact ⟨Event.attemptError task.id e :: (runAttempts env res task v dt 1 k).1,
          by simp [he]⟩

/-- One captured-state step appends exactly one unit per completed
visit, marked in the trace by the visit's retry-0 attempt event, and
preserves the property for the continuation. -/
theorem execStepS_invariant (env : Env) (tasks : List ChainTask)
    (recur : VarMap → ChainTask → Value → DataType →
      List Event × List CapturedStateUnit × ExecOutcome)
    (hrec : ∀ vs ct w dt2,
      (recur vs ct w dt2).2.1.length = countVisits (recur vs ct w dt2).1
      ∧ ∀ u ∈ (recur vs ct w dt2).2.1,
          Event.taskAttempt u.taskID 0 u.taskType ∈ (recur vs ct w dt2).1)
    (res : Policy) (vars : VarMap) (currentTask : ChainTask)
    (output : Value) (outputType : DataType) :
    (execStepS env tasks recur res vars currentTask output outputType).2.1.length =
      countVisits (execStepS env tasks recur res vars currentTask output outputType).1
  ∧ ∀ u ∈ (execStepS env tasks recur res vars currentTask output outputType).2.1,
      Event.taskAttempt u.taskID 0 u.taskType ∈
        (execStepS env tasks recur res vars currentTask output outputType).1 := by
  cases ht : timeoutCheck env currentTask with
  | some msg =>
    have hra := runAttempts_timeout_fatal env res currentTask output outputType msg 0
      (maxRetriesOf currentTask) ht
    simp [execStepS, hra, countVisits]
  | none =>
    obtain ⟨o, ho⟩ := runAttempts_done env res currentTask output outputType ht
      (maxRetriesOf currentTask) 0
    obtain ⟨hv1, t, htr⟩ := runAttempts_visits_zero env res currentTask output outputType ht
      (maxRetriesOf currentTask)
    have hmem0 : Event.taskAttempt currentTask.id 0 currentTask.taskType ∈
        (runAttempts env res currentTask output outputType 0 (maxRetriesOf currentTask)).1 := by
      rw [htr]
      exact List.mem_cons_self _ _
    simp only [execStepS, ho]
    cases hoe : o.err with
    | some e =>
      simp only [hoe]
      by_cases hof : currentTask.transition.onFailure ≠ ""
      · rw [if_pos hof]
        cases hfind : findTaskByID tasks currentTask.transition.onFailure with
        | error fe =>
          constructor
          · simpa using hv1.symm
          · intro u hu
            rw [List.mem_singleton] at hu
            subst hu
            exact hmem0
        | ok nt =>
          have hp := hrec vars nt o.output o.outputType
          constructor
          · simp only [List.length_cons, hp.1, countVisits_append]
            rw [hv1]
            simp [countVisits, List.filter]
            omega
          · intro u hu
            rw [List.mem_cons] at hu
            rcases hu with rfl | hu
            · exact List.mem_append.mpr (Or.inl hmem0)
            · exact List.mem_append.mpr (Or.inr
                (List.mem_cons_of_mem _ (hp.2 u hu)))
      · rw [if_neg hof]
        constructor
        · simpa using hv1.symm
        · intro u hu
          rw [List.mem_singleton] at hu
          subst hu
          exact hmem0
    | none =>
      simp only [hoe]
      by_cases hpr : currentTask.print ≠ ""
      · rw [if_pos hpr]
        cases hrd : env.render currentTask.print
            ((vars.insert "previous_output" o.output).insert currentTask.id o.output) with
        | error re =>
          constructor
          · simpa using hv1.symm
          · intro u hu
            rw [List.mem_singleton] at hu
            subst hu
            exact hmem0
        | ok msg =>
          cases hev : evaluateTransitions currentTask.transition o.transitionEval with
          | error te =>
            constructor
            · rw [countVisits_append, hv1]
              simp [countVisits, List.filter]
            · intro u hu
              rw [List.mem_singleton] at hu
              subst hu
              exact List.mem_append.mpr (Or.inl hmem0)
          | ok nid =>
            dsimp only
            by_cases hterm : nid = "" ∨ nid = TermEnd
            · rw [if_pos hterm]
              constructor
              · rw [countVisits_append, countVisits_append, hv1]
                simp [countVisits, List.filter]
              · intro u hu
                rw [List.mem_singleton] at hu
                subst hu
                exact List.mem_append.mpr (Or.inl (List.mem_append.mpr (Or.inl hmem0)))
            · rw [if_neg hterm]
              cases hfind : findTaskByID tasks nid with
              | error fe =>
                constructor
                · rw [countVisits_append, countVisits_append, hv1]
                  simp [countVisits, List.filter]
                · intro u hu
                  rw [List.mem_singleton] at hu
                  subst hu
                  exact List.mem_append.mpr (Or.inl (List.mem_append.mpr (Or.inl hmem0)))
              | ok nt =>
                have hp := hrec ((vars.insert "previous_output" o.output).insert
                  currentTask.id o.output) nt o.output o.outputType
                constructor
                · simp only [List.length_cons, hp.1, countVisits_append]
                  rw [hv1]
                  simp [countVisits, List.filter]
                  omega
                · intro u hu
                  rw [List.mem_cons] at hu
                  rcases hu with rfl | hu
                  · exact List.mem_append.mpr (Or.inl (List.mem_append.mpr (Or.inl hmem0)))
                  · exact List.mem_append.mpr (Or.inr
                      (List.mem_cons_of_mem _ (hp.2 u hu)))
      · rw [if_neg hpr]
        cases hev : evaluateTransitions currentTask.transition o.transitionEval with
        | error te =>
          constructor
          · rw [countVisits_append, hv1]
            simp [countVisits]
          · intro u hu
            rw [List.mem_singleton] at hu
            subst hu
            exact List.mem_append.mpr (Or.inl hmem0)
        | ok nid =>
          dsimp only
          by_cases hterm : nid = "" ∨ nid = TermEnd
          · rw [if_pos hterm]
            constructor
            · rw [countVisits_append, countVisits_append, hv1]
              simp [countVisits, List.filter]
            · intro u hu
              rw [List.mem_singleton] at hu
              subst hu
              exact List.mem_append.mpr (Or.inl (List.mem_append.mpr (Or.inl hmem0)))
          · rw [if_neg hterm]
            cases hfind : findTaskByID tasks nid with
            | error fe =>
              constructor
              · rw [countVisits_append, countVisits_append, hv1]
                simp [countVisits, List.filter]
              · intro u hu
                rw [List.mem_singleton] at hu
                subst hu
                exact List.mem_append.mpr (Or.inl (List.mem_append.mpr (Or.inl hmem0)))
            | ok nt =>
              have hp := hrec ((vars.insert "previous_output" o.output).insert
                currentTask.id o.output) nt o.output o.outputType
              constructor
              · simp only [List.length_cons, hp.1, countVisits_append]
                rw [hv1]
                simp [countVisits, List.filter]
                omega
              · intro u hu
                rw [List.mem_cons] at hu
                rcases hu with rfl | hu
                · exact List.mem_append.mpr (Or.inl (List.mem_append.mpr (Or.inl hmem0)))
                · exact List.mem_append.mpr (Or.inr
                    (List.mem_cons_of_mem _ (hp.2 u hu)))

/-- The captured-state loop keeps one unit per task visit, each marked
in the trace by its retry-0 attempt event, for every outcome. -/
theorem execLoopS_invariant (env : Env) (res : Policy) (tasks : List ChainTask) :
    ∀ fuel vars current v dt,
      (execLoopS env res tasks fuel vars current v dt).2.1.length =
        countVisits (execLoopS env res tasks fuel vars current v dt).1
    ∧ ∀ u ∈ (execLoopS env res tasks fuel vars current v dt).2.1,
        Event.taskAttempt u.taskID 0 u.taskType ∈
          (execLoopS env res tasks fuel vars current v dt).1 := by
  intro fuel
  induction fuel with
  | zero =>
    intro vars current v dt
    refine ⟨rfl, ?_⟩
    intro u hu
    simp [execLoopS] at hu
  | succ f ih =>
    intro vars current v dt
    simp only [execLoopS]
    by_cases hc : dt = DataType.string ∧ current.template ≠ ""
    · rw [if_pos hc]
      cases hr : env.render current.template vars with
      | error e =>
        dsimp only
        refine ⟨rfl, ?_⟩
        intro u hu
        simp at hu
      | ok s =>
        dsimp only
        by_cases hs : s = ""
        · rw [if_pos hs]
          refine ⟨rfl, ?_⟩
          intro u hu
          simp at hu
        · rw [if_neg hs]
          exact execStepS_invariant env tasks _ (fun vs ct w dt2 => ih vs ct w dt2)
            res vars current (Value.str s) dt
    · rw [if_neg hc]
      exact execStepS_invariant env tasks _ (fun vs ct w dt2 => ih vs ct w dt2)
        res vars current v dt

/-- C1: for every execution of the captured-state engine that completes
successfully, the full sequence of captured units is returned alongside
the final output, with exactly one unit per task visit (the visits being
the retry-0 attempt events of the trace), each unit recording the
visited task's id and type (tied to its attempt event) along with input
type, output type, transition evaluation, duration, and optional error
(the fields of `CapturedStateUnit`). -/
theorem c1_captured_state_per_visit (env : Env) (chain : ChainDefinition)
    (input : Value) (dt : DataType) (fuel : Nat)
    (evs : List Event) (units : List CapturedStateUnit) (v : Value)
    (h : ExecEnvS env chain input dt fuel = (evs, units, .ok v)) :
    units.length = countVisits evs
  ∧ ∀ u ∈ units, Event.taskAttempt u.taskID 0 u.taskType ∈ evs := by
  unfold ExecEnvS at h
  cases hp : resolvePolicy chain with
  | error e => rw [hp] at h; simp at h
  | ok p =>
    rw [hp] at h
    cases hv : validateChain chain.tasks with
    | some e => rw [hv] at h; simp at h
    | none =>
      rw [hv] at h
      cases hts : chain.tasks with
      | nil => rw [hts] at h; simp at h
      | cons t0 ts =>
        rw [hts] at h
        dsimp only at h
        cases hf : findTaskByID (t0 :: ts) t0.id with
        | error e => rw [hf] at h; simp at h
        | ok ct =>
          rw [hf] at h
          dsimp only at h
          have hi := execLoopS_invariant env p (t0 :: ts) fuel (VarMap.init input) ct input dt
          rw [h] at hi
          exact hi

/-- Witness for C1: the one-task passthrough chain makes one visit and
captures exactly one unit, tied to its attempt event. -/
theorem c1_witness :
    ([(⟨"t", "raw_string", DataType.string, DataType.string, "hello", 1, none⟩ :
        CapturedStateUnit)] : List CapturedStateUnit).length =
      countVisits [Event.taskAttempt "t" 0 "raw_string", Event.attemptSuccess "t",
        Event.chainComplete]
  ∧ ∀ u ∈ [(⟨"t", "raw_string", DataType.string, DataType.string, "hello", 1, none⟩ :
        CapturedStateUnit)],
      Event.taskAttempt u.taskID 0 u.taskType ∈
        [Event.taskAttempt "t" 0 "raw_string", Event.attemptSuccess "t",
         Event.chainComplete] := by
  exact c1_captured_state_per_visit testEnv testChain (Value.str "hello")
    DataType.string 5
    [Event.taskAttempt "t" 0 "raw_string", Event.attemptSuccess "t", Event.chainComplete]
    [⟨"t", "raw_string", DataType.string, DataType.string, "hello", 1, none⟩]
    (Value.str "hello") (by decide)

/-- Witness for C10: a three-piece split and a negative-lower-bound
range, both rejected. -/
theorem c10_witness :
    compare OpInRange "0" "1-2-3" = .error ("invalid between range format: " ++ "1-2-3")
  ∧ ∃ e, compare OpInRange "7" "-5" = .error e := by
  exact ⟨c10_in_range_split_shape.1 "0" "1-2-3" (by decide),
    c10_in_range_split_shape.2.1 "7" "-5" [['5']] (by decide)⟩
